import Mathlib

/-!
Shallow embedding of the playback-session core of `src/main.go` (rrply, a
console player for rockradio.com), and proofs about the spec's claims.

The Go program keeps a single global `RockRadioPlayer` value `rr` whose
`Status` field is a `uint64` with the constants `PLAY = 0x100`,
`PAUSE = 0x200`, `STOP = 0x300`.  The transition operations
(`Play`, `Pause`, `Resume`, `Stop`) mutate `Status` and issue commands to a
vlc player handle; we model the player handle as the ordered trace of
engine commands issued so far.  The `Sleep` duration tracker polls `Status`
once per wall-clock second; we model the statuses it observes as a function
from the second index to the status value, and give the loop explicit fuel
(the Go loop can spin forever if the status never becomes `PLAY`).
-/

/-- Status constant `PLAY = 0x100` from `src/main.go`. -/
def PLAY : Nat := 0x100

/-- Status constant `PAUSE = 0x200` from `src/main.go`. -/
def PAUSE : Nat := 0x200

/-- Status constant `STOP = 0x300` from `src/main.go`. -/
def STOP : Nat := 0x300

/-- `type Hotkey struct { Key, Desc string }`. -/
structure Hotkey where
  Key : String
  Desc : String
  deriving DecidableEq

/-- `type ChannelChunkTracksContentAssets struct { Url string }`. -/
structure ChannelChunkTracksContentAssets where
  Url : String
  deriving DecidableEq

/-- `type ChannelChunkTracksContent struct { Length float64; Assets []ChannelChunkTracksContentAssets }`.
The float64 track length is modelled as a rational number. -/
structure ChannelChunkTracksContent where
  Length : ℚ
  Assets : List ChannelChunkTracksContentAssets
  deriving DecidableEq

/-- `type ChannelChunkTracks struct { ... }` (the fields the playing loop uses). -/
structure ChannelChunkTracks where
  Artist : String
  Title : String
  Album : String
  Content : ChannelChunkTracksContent
  deriving DecidableEq

/-- A command issued to the vlc player handle. -/
inductive EngineCmd where
  | stop
  | load (url : String)
  | play
  | setPause (flag : Bool)
  deriving DecidableEq

/-- The part of the global `RockRadioPlayer` state the claims are about:
the `Status` field (a `uint64`) and the vlc handle, modelled as the ordered
trace of commands issued to it. -/
structure PlayerState where
  Status : Nat
  engine : List EngineCmd
  deriving DecidableEq

/-- `var rr RockRadioPlayer`: Go zero-initializes the struct, so the initial
`Status` is `0` and no engine command has been issued. -/
def rr : PlayerState := { Status := 0, engine := [] }

/-- `func (p *RockRadioPlayer) Pause()`: unconditionally issues
`vlcPlayer.SetPause(true)` and sets `Status = PAUSE`. -/
def RockRadioPlayer.Pause (p : PlayerState) : PlayerState :=
  { p with Status := PAUSE, engine := p.engine ++ [EngineCmd.setPause true] }

/-- `func (p *RockRadioPlayer) Resume()`: unconditionally issues
`vlcPlayer.SetPause(false)` and sets `Status = PLAY`. -/
def RockRadioPlayer.Resume (p : PlayerState) : PlayerState :=
  { p with Status := PLAY, engine := p.engine ++ [EngineCmd.setPause false] }

/-- `func (p *RockRadioPlayer) Stop()`: issues `vlcPlayer.Stop()` and sets
`Status = STOP`. -/
def RockRadioPlayer.Stop (p : PlayerState) : PlayerState :=
  { p with Status := STOP, engine := p.engine ++ [EngineCmd.stop] }

/-- `func (p *RockRadioPlayer) Play()` (success path): loads the current
track url into the engine, issues the play command, then checks the status:
if it reads `PAUSE` at that moment it calls `Pause()` (so the engine is
paused again and the status stays `PAUSE`), otherwise it sets
`Status = PLAY`. -/
def RockRadioPlayer.Play (url : String) (p : PlayerState) : PlayerState :=
  let q : PlayerState :=
    { p with engine := p.engine ++ [EngineCmd.load url, EngineCmd.play] }
  if q.Status = PAUSE then RockRadioPlayer.Pause q
  else { q with Status := PLAY }

/-- The key-press callback installed by `func (hotkey Hotkey) attach`:
`if rr.Status == STOP || rr.Status == PAUSE { go rr.Resume() } else { go rr.Pause() }`. -/
def Hotkey.attachHandler (p : PlayerState) : PlayerState :=
  if p.Status = STOP ∨ p.Status = PAUSE then RockRadioPlayer.Resume p
  else RockRadioPlayer.Pause p

/-- Claim C2: For every hotkey toggle event, the handler invokes `resume()`
if the status read at signal time is `STOP` or `PAUSE`, and invokes
`pause()` otherwise. -/
theorem attachHandler_dispatch (p : PlayerState) :
    (p.Status = STOP ∨ p.Status = PAUSE →
      Hotkey.attachHandler p = RockRadioPlayer.Resume p) ∧
    (p.Status ≠ STOP ∧ p.Status ≠ PAUSE →
      Hotkey.attachHandler p = RockRadioPlayer.Pause p) := by
  constructor
  · intro h
    simp [Hotkey.attachHandler, h]
  · rintro ⟨h1, h2⟩
    simp [Hotkey.attachHandler, h1, h2]

/-- Witness for C2: both branches of `attachHandler_dispatch` at concrete
states (status `STOP`, and status `PLAY`). -/
theorem attachHandler_dispatch_witness :
    Hotkey.attachHandler { Status := STOP, engine := [] }
      = RockRadioPlayer.Resume { Status := STOP, engine := [] } ∧
    Hotkey.attachHandler { Status := PLAY, engine := [] }
      = RockRadioPlayer.Pause { Status := PLAY, engine := [] } :=
  ⟨(attachHandler_dispatch _).1 (Or.inl rfl),
   (attachHandler_dispatch _).2 ⟨by decide, by decide⟩⟩

/-- Claim C3: after the engine load+play step, the status becomes `PLAY`,
unless the status reads `PAUSE` at that moment, in which case `Pause()` runs
and the session stays `PAUSE` (a concurrent pause survives the track
boundary). -/
theorem Play_status (p : PlayerState) (url : String) :
    (p.Status = PAUSE →
      (RockRadioPlayer.Play url p).Status = PAUSE ∧
      (RockRadioPlayer.Play url p).engine
        = p.engine ++ [EngineCmd.load url, EngineCmd.play, EngineCmd.setPause true]) ∧
    (p.Status ≠ PAUSE →
      (RockRadioPlayer.Play url p).Status = PLAY ∧
      (RockRadioPlayer.Play url p).engine
        = p.engine ++ [EngineCmd.load url, EngineCmd.play]) := by
  constructor
  · intro h
    simp [RockRadioPlayer.Play, RockRadioPlayer.Pause, h]
  · intro h
    simp [RockRadioPlayer.Play, h]

/-- Witness for C3: both branches of `Play_status` at concrete states. -/
theorem Play_status_witness :
    (RockRadioPlayer.Play "u" { Status := PAUSE, engine := [] }).Status = PAUSE ∧
    (RockRadioPlayer.Play "u" { Status := STOP, engine := [] }).Status = PLAY :=
  ⟨((Play_status { Status := PAUSE, engine := [] } "u").1 rfl).1,
   ((Play_status { Status := STOP, engine := [] } "u").2 (by decide)).1⟩

/-- Claim C4 counterexample: invoking `Pause()` while the status is `STOP`
is not a no-op: the status changes from `STOP` to `PAUSE` and an engine
pause command is issued. -/
theorem Pause_from_stop_not_noop :
    (RockRadioPlayer.Pause { Status := STOP, engine := [] }).Status = PAUSE ∧
    PAUSE ≠ STOP ∧
    (RockRadioPlayer.Pause { Status := STOP, engine := [] }).engine
      = [EngineCmd.setPause true] := by
  refine ⟨rfl, by decide, rfl⟩

/-- Claim C4 (amended): `Pause()` is unconditional: from every state it
issues `SetPause(true)` to the engine and sets the status to `PAUSE`.  In
particular it transitions `PLAY → PAUSE`, but from `STOP` it is not a no-op
(the status becomes `PAUSE`), and from `PAUSE` it re-issues the engine
command. -/
theorem Pause_unconditional (p : PlayerState) :
    (RockRadioPlayer.Pause p).Status = PAUSE ∧
    (RockRadioPlayer.Pause p).engine = p.engine ++ [EngineCmd.setPause true] :=
  ⟨rfl, rfl⟩

/-- Claim C7 counterexample: the initial session state (`var rr`) has
status `0`, the Go zero value, which differs from the `STOP` constant
`0x300`. -/
theorem rr_initial_status_not_stop :
    rr.Status = 0 ∧ STOP = 0x300 ∧ rr.Status ≠ STOP := by
  refine ⟨rfl, rfl, by decide⟩

/-- Claim C7 (amended): the initial status is the zero value `0`, which is
none of `PLAY`, `PAUSE`, `STOP`; every status written by a transition
operation (`Play`, `Pause`, `Resume`, `Stop`) is one of `PLAY`, `PAUSE`,
`STOP`. -/
theorem status_range (p : PlayerState) (url : String) :
    rr.Status = 0 ∧
    ¬(rr.Status = PLAY ∨ rr.Status = PAUSE ∨ rr.Status = STOP) ∧
    ((RockRadioPlayer.Play url p).Status = PLAY ∨
      (RockRadioPlayer.Play url p).Status = PAUSE) ∧
    (RockRadioPlayer.Pause p).Status = PAUSE ∧
    (RockRadioPlayer.Resume p).Status = PLAY ∧
    (RockRadioPlayer.Stop p).Status = STOP := by
  refine ⟨rfl, by decide, ?_, rfl, rfl, rfl⟩
  by_cases h : p.Status = PAUSE
  · exact Or.inr (by simp [RockRadioPlayer.Play, RockRadioPlayer.Pause, h])
  · exact Or.inl (by simp [RockRadioPlayer.Play, h])

/-- Claim C8: delivering two toggle signals in immediate succession to a
session whose status is `PLAY` returns the status to `PLAY`. -/
theorem toggle_twice_playing (p : PlayerState) (h : p.Status = PLAY) :
    (Hotkey.attachHandler (Hotkey.attachHandler p)).Status = PLAY := by
  simp [Hotkey.attachHandler, RockRadioPlayer.Pause, RockRadioPlayer.Resume, h,
    PLAY, PAUSE, STOP]

/-- Witness for C8 at the concrete playing state. -/
theorem toggle_twice_playing_witness :
    (Hotkey.attachHandler (Hotkey.attachHandler { Status := PLAY, engine := [] })).Status
      = PLAY :=
  toggle_twice_playing { Status := PLAY, engine := [] } rfl

/-- The body of `func (p *RockRadioPlayer) Sleep(s float64)`, one wall-clock
second per step.  `status t` is the value of `rr.Status` observed during
second `t` (it is written concurrently by the other goroutines), `counter`
is the local float64 counter, and `fuel` bounds the number of iterations
(the Go loop has no bound and can spin forever; `none` means the bound was
hit before the loop fired).  On firing it returns the number of elapsed
seconds together with the final counter value. -/
def sleepAux (status : Nat → Nat) (s : ℚ) : Nat → Nat → ℚ → Option (Nat × ℚ)
  | 0, _, _ => none
  | fuel + 1, t, counter =>
    let c := if status t = PLAY then counter + 1 else counter
    if s ≤ c then some (t + 1, c) else sleepAux status s fuel (t + 1) c

/-- `func (p *RockRadioPlayer) Sleep(s float64)`: run the loop from second
`0` with the counter at `0`. -/
def RockRadioPlayer.Sleep (status : Nat → Nat) (s : ℚ) (fuel : Nat) :
    Option (Nat × ℚ) :=
  sleepAux status s fuel 0 0

/-- Number of seconds with status `PLAY` among the `k` seconds starting at
second `t`. -/
def playSecondsFrom (status : Nat → Nat) : Nat → Nat → Nat
  | _, 0 => 0
  | t, k + 1 =>
    (if status t = PLAY then 1 else 0) + playSecondsFrom status (t + 1) k

lemma sleepAux_count (status : Nat → Nat) (s : ℚ) :
    ∀ (fuel t : Nat) (counter : ℚ) (n : Nat) (c : ℚ),
      sleepAux status s fuel t counter = some (n, c) →
      t < n ∧ c = counter + (playSecondsFrom status t (n - t) : ℚ) := by
  intro fuel
  induction fuel with
  | zero => intro t counter n c h; simp [sleepAux] at h
  | succ fuel ih =>
    intro t counter n c h
    simp only [sleepAux] at h
    by_cases hb : s ≤ (if status t = PLAY then counter + 1 else counter)
    · rw [if_pos hb] at h
      obtain ⟨hn, hc⟩ := Prod.mk.injEq .. ▸ Option.some.injEq .. ▸ h
      subst hn
      constructor
      · omega
      · have hk : t + 1 - t = 1 := by omega
        rw [hk]
        by_cases hp : status t = PLAY <;>
          simp [playSecondsFrom, hp, ← hc]
    · rw [if_neg hb] at h
      obtain ⟨h1, h2⟩ := ih (t + 1) _ n c h
      constructor
      · omega
      · have hk : n - t = (n - (t + 1)) + 1 := by omega
        rw [hk]
        rcases eq_or_ne (status t) PLAY with hp | hp
        · simp only [playSecondsFrom, hp, if_pos, if_true, h2]
          push_cast
          ring
        · simp [playSecondsFrom, hp, h2]

lemma sleepAux_ceil (status : Nat → Nat) (s : ℚ) :
    ∀ (fuel t n : Nat) (counter c : ℚ) (k : Nat),
      counter = (k : ℚ) →
      counter < s →
      sleepAux status s fuel t counter = some (n, c) →
      c = (Int.ceil s : ℚ) := by
  intro fuel
  induction fuel with
  | zero => intro t n counter c k hk hlt h; simp [sleepAux] at h
  | succ fuel ih =>
    intro t n counter c k hk hlt h
    simp only [sleepAux] at h
    by_cases hb : s ≤ (if status t = PLAY then counter + 1 else counter)
    · rw [if_pos hb] at h
      obtain ⟨hn, hc⟩ := Prod.mk.injEq .. ▸ Option.some.injEq .. ▸ h
      rcases eq_or_ne (status t) PLAY with hp | hp
      · rw [if_pos hp] at hc hb
        subst hk
        have hceil : Int.ceil s = (k : ℤ) + 1 := by
          rw [Int.ceil_eq_iff]
          refine ⟨by push_cast; linarith, by push_cast; linarith⟩
        rw [hceil, ← hc]
        push_cast
        ring
      · rw [if_neg hp] at hb
        exact absurd hb (not_le.mpr hlt)
    · rw [if_neg hb] at h
      rcases eq_or_ne (status t) PLAY with hp | hp
      · rw [if_pos hp] at h hb
        exact ih (t + 1) n (counter + 1) c (k + 1)
          (by rw [hk]; push_cast; ring) (lt_of_not_le hb) h
      · rw [if_neg hp] at h hb
        exact ih (t + 1) n counter c k hk (lt_of_not_le hb) h

/-- Claim C1 (amended): if the tracker fires after `n` seconds with final
counter `c` (for a positive target duration `s`), then the counter counted
exactly the seconds during which the status was `PLAY` (it never
incremented while paused or stopped), and the accumulated PLAYING-time `c`
equals `⌈s⌉`, the duration rounded up to a whole second — which equals the
nominal duration exactly when `s` is a whole number of seconds. -/
theorem Sleep_playing_time (status : Nat → Nat) (s : ℚ) (fuel n : Nat) (c : ℚ)
    (hs : 0 < s) (h : RockRadioPlayer.Sleep status s fuel = some (n, c)) :
    c = (Int.ceil s : ℚ) ∧ c = (playSecondsFrom status 0 n : ℚ) := by
  constructor
  · exact sleepAux_ceil status s fuel 0 n 0 c 0 (by norm_num) hs h
  · have := sleepAux_count status s fuel 0 0 n c h
    simpa using this.2

/-- Witness for C1 (amended) at duration 2 with an always-PLAYING status. -/
theorem Sleep_playing_time_witness :
    (2 : ℚ) = (Int.ceil (2 : ℚ) : ℚ) ∧
    (2 : ℚ) = (playSecondsFrom (fun _ => PLAY) 0 2 : ℚ) :=
  Sleep_playing_time (fun _ => PLAY) 2 5 2 2 (by norm_num)
    (by norm_num [RockRadioPlayer.Sleep, sleepAux, PLAY])

/-- Claim C1 counterexample: with target duration `D = 1/2` (track lengths
are float64 seconds, so fractional durations occur) and a status that is
constantly `PLAY`, the tracker fires with accumulated PLAYING-time `1`,
not `D = 1/2`: it does not return control exactly when the counter reaches
`D`, and the PLAYING-time differs from the nominal duration. -/
theorem Sleep_fractional_counterexample :
    RockRadioPlayer.Sleep (fun _ => PLAY) (1 / 2) 3 = some (1, 1) ∧
    (1 : ℚ) ≠ 1 / 2 := by
  refine ⟨by norm_num [RockRadioPlayer.Sleep, sleepAux, PLAY], by norm_num⟩

/-- Outcome of reading and parsing the hotkey config file inside
`func bindall`. -/
inductive HotkeyConfigRead where
  | missing
  | malformed
  | parsed (hotkeys : List Hotkey)
  deriving DecidableEq

/-- Result of a `bindall` call, as observed by the process. -/
inductive BindResult where
  | fatalExit
  | bound (hotkeys : List Hotkey)
  deriving DecidableEq

/-- `func bindall(hotkeyConfig string, X *xgbutil.XUtil) (err error)`: when
`ioutil.ReadFile` fails it calls `log.Fatal` (which exits the process with
code 1 -- the `return` statement after it is dead code), when
`json.Unmarshal` fails it likewise calls `log.Fatal`; otherwise it detaches
the previous bindings and attaches one binding per parsed hotkey. -/
def bindall : HotkeyConfigRead → BindResult
  | HotkeyConfigRead.missing => BindResult.fatalExit
  | HotkeyConfigRead.malformed => BindResult.fatalExit
  | HotkeyConfigRead.parsed hotkeys => BindResult.bound hotkeys

/-- Claim C5 (code bug, evaluated at the failing input): at a live reload
with the hotkey config file missing or malformed, `bindall` reaches
`log.Fatal`, which terminates the process, so the previously active
bindings do not remain in effect and the reload loop does not continue.
The watcher goroutine's recovery branch (`log.Println(err); continue`) is
dead code: `bindall` never returns a non-nil error. -/
theorem bindall_fatal_on_bad_config :
    bindall HotkeyConfigRead.missing = BindResult.fatalExit ∧
    bindall HotkeyConfigRead.malformed = BindResult.fatalExit :=
  ⟨rfl, rfl⟩

/-- One chunk of the playing loop in `func main` (the driving goroutine,
sequential by construction): for each track of the fetched chunk, in array
order, it calls `rr.Stop()`, reads `track.Content.Assets[0]` (an
out-of-bounds panic -- modelled as `none` -- when the asset list is empty),
and starts `rr.Play()` with the url `"https:" + CurrentTrack.Url`. -/
def mainChunkLoop : List ChannelChunkTracks → PlayerState → Option PlayerState
  | [], p => some p
  | track :: rest, p =>
    match track.Content.Assets[0]? with
    | none => none
    | some asset =>
      mainChunkLoop rest
        (RockRadioPlayer.Play ("https:" ++ asset.Url) (RockRadioPlayer.Stop p))

lemma playPreceded_cons (u : String) (tr : List EngineCmd)
    (h : ∀ n, tr[n]? = some EngineCmd.play →
      2 ≤ n ∧ tr[n - 2]? = some EngineCmd.stop) :
    ∀ n, (EngineCmd.stop :: EngineCmd.load u :: EngineCmd.play :: tr)[n]?
        = some EngineCmd.play →
      2 ≤ n ∧ (EngineCmd.stop :: EngineCmd.load u :: EngineCmd.play :: tr)[n - 2]?
        = some EngineCmd.stop := by
  intro n hn
  match n with
  | 0 => simp at hn
  | 1 => simp at hn
  | 2 => exact ⟨by omega, rfl⟩
  | m + 3 =>
    rw [List.getElem?_cons_succ, List.getElem?_cons_succ,
      List.getElem?_cons_succ] at hn
    obtain ⟨hm, hstop⟩ := h m hn
    obtain ⟨k, rfl⟩ : ∃ k, m = k + 2 := ⟨m - 2, by omega⟩
    refine ⟨by omega, ?_⟩
    have hidx : k + 2 + 3 - 2 = k + 3 := by omega
    rw [hidx, List.getElem?_cons_succ, List.getElem?_cons_succ,
      List.getElem?_cons_succ]
    simpa using hstop

lemma mainChunkLoop_trace (tracks : List ChannelChunkTracks) :
    ∀ p q : PlayerState, mainChunkLoop tracks p = some q →
      ∃ tr, q.engine = p.engine ++ tr ∧
        ∀ n, tr[n]? = some EngineCmd.play →
          2 ≤ n ∧ tr[n - 2]? = some EngineCmd.stop := by
  induction tracks with
  | nil =>
    intro p q h
    simp only [mainChunkLoop, Option.some.injEq] at h
    subst h
    exact ⟨[], by simp, by simp⟩
  | cons track rest ih =>
    intro p q h
    simp only [mainChunkLoop] at h
    cases hA : track.Content.Assets[0]? with
    | none => rw [hA] at h; simp at h
    | some asset =>
      rw [hA] at h
      obtain ⟨tr, htr, hprop⟩ := ih _ q h
      have hengine :
          (RockRadioPlayer.Play ("https:" ++ asset.Url)
            (RockRadioPlayer.Stop p)).engine
          = p.engine ++ [EngineCmd.stop,
              EngineCmd.load ("https:" ++ asset.Url), EngineCmd.play] := by
        simp [RockRadioPlayer.Play, RockRadioPlayer.Stop, RockRadioPlayer.Pause,
          STOP, PAUSE]
      refine ⟨EngineCmd.stop :: EngineCmd.load ("https:" ++ asset.Url)
        :: EngineCmd.play :: tr, ?_, playPreceded_cons _ tr hprop⟩
      rw [htr, hengine]
      simp

/-- Claim C6: for a run of the playing loop over a chunk, every `play`
command the engine receives is issued strictly after a `stop` command two
positions earlier in the engine trace (the `rr.Stop()` call that halts the
preceding track); a play for a later track is never issued ahead of the
preceding track's stop. -/
theorem play_after_preceding_stop (tracks : List ChannelChunkTracks)
    (p q : PlayerState) (hrun : mainChunkLoop tracks p = some q) (n : Nat)
    (hplay : (q.engine.drop p.engine.length)[n]? = some EngineCmd.play) :
    2 ≤ n ∧ (q.engine.drop p.engine.length)[n - 2]? = some EngineCmd.stop := by
  obtain ⟨tr, htr, hprop⟩ := mainChunkLoop_trace tracks p q hrun
  have hdrop : q.engine.drop p.engine.length = tr := by
    rw [htr, List.drop_left]
  rw [hdrop] at hplay ⊢
  exact hprop n hplay

/-- Witness for C6: a two-track chunk; the second track's `play` command
(at trace position 5) is preceded by the corresponding `stop` at
position 3. -/
theorem play_after_preceding_stop_witness :
    2 ≤ 5 ∧
    ((PlayerState.mk PLAY
        [EngineCmd.stop, EngineCmd.load "https:u1", EngineCmd.play,
         EngineCmd.stop, EngineCmd.load "https:u2",
         EngineCmd.play]).engine.drop rr.engine.length)[5 - 2]?
      = some EngineCmd.stop :=
  play_after_preceding_stop
    [{ Artist := "a", Title := "b", Album := "c",
       Content := { Length := 3, Assets := [{ Url := "u1" }] } },
     { Artist := "d", Title := "e", Album := "f",
       Content := { Length := 4, Assets := [{ Url := "u2" }] } }]
    rr
    (PlayerState.mk PLAY
      [EngineCmd.stop, EngineCmd.load "https:u1", EngineCmd.play,
       EngineCmd.stop, EngineCmd.load "https:u2", EngineCmd.play])
    (by decide) 5 (by decide)

/-- Claim C10: the loop body indexes `track.Content.Assets[0]` with no
emptiness check; a chunk run stays in bounds exactly when every track has a
non-empty asset list, and any chunk containing a track with an empty asset
list reaches the out-of-bounds branch. -/
theorem firstAsset_bounds (tracks : List ChannelChunkTracks) (p : PlayerState) :
    ((∃ t ∈ tracks, t.Content.Assets = []) → mainChunkLoop tracks p = none) ∧
    ((∀ t ∈ tracks, t.Content.Assets ≠ []) →
      (mainChunkLoop tracks p).isSome = true) := by
  induction tracks generalizing p with
  | nil =>
    constructor
    · rintro ⟨t, ht, -⟩
      simp at ht
    · intro
      simp [mainChunkLoop]
  | cons track rest ih =>
    constructor
    · rintro ⟨t, ht, hempty⟩
      rcases List.mem_cons.mp ht with rfl | hmem
      · simp [mainChunkLoop, hempty]
      · cases hA : track.Content.Assets with
        | nil => simp [mainChunkLoop, hA]
        | cons a as =>
          simp only [mainChunkLoop, hA, List.getElem?_cons_zero]
          exact (ih _).1 ⟨t, hmem, hempty⟩
    · intro hall
      have htrack := hall track (List.mem_cons_self track rest)
      cases hA : track.Content.Assets with
      | nil => exact absurd hA htrack
      | cons a as =>
        simp only [mainChunkLoop, hA, List.getElem?_cons_zero]
        exact (ih _).2 fun t ht => hall t (List.mem_cons_of_mem _ ht)

/-- Witness for C10: a one-track chunk with an empty asset list reaches the
error branch; a one-track chunk with one asset succeeds. -/
theorem firstAsset_bounds_witness :
    mainChunkLoop
      [{ Artist := "a", Title := "b", Album := "c",
         Content := { Length := 1, Assets := [] } }] rr = none ∧
    (mainChunkLoop
      [{ Artist := "a", Title := "b", Album := "c",
         Content := { Length := 1, Assets := [{ Url := "u" }] } }] rr).isSome
      = true :=
  ⟨(firstAsset_bounds _ rr).1
    ⟨{ Artist := "a", Title := "b", Album := "c",
       Content := { Length := 1, Assets := [] } }, by simp, rfl⟩,
   (firstAsset_bounds _ rr).2 (by simp)⟩
